import Mathlib

/-!
Shallow embedding of `src/habit_tracker.py` (the habit-record subsystem).

Conventions used throughout:

* Calendar dates are modelled by their day ordinal as an `Int`; the Python
  expression `(today - start_date).days` becomes `today - startDate` (both
  datetimes are midnight values, so their difference is a whole number of
  days).
* Python strings are modelled as `List Char`; the text of a record file is
  modelled at the line level as `List (List Char)`, the result of
  `splitlines` on the flat text (lines are separated by a newline
  character, and the trailing newline written by `_write_habit` produces no
  extra line).
* A failing Python `assert` (an `AssertionError`) is modelled as an error
  value (`Option.none` / `Except.error`), tagged with the error name the
  spec assigns to that assertion site.
-/

namespace HabitTracker

/-- The newline character, used as the line separator of the record text. -/
def NL : Char := ('\n')

/-- The `Result` enum of `habit_tracker.py`: GOOD (`+`), BAD (`-`),
UNKNOWN (`?`). -/
inductive Result where
  | GOOD
  | BAD
  | UNKNOWN
deriving DecidableEq, Repr

/-- The wire representation of a `Result` (Python `result.value`), as the
character list of its one-character string. -/
def Result.value : Result → List Char
  | .GOOD => ['+']
  | .BAD => ['-']
  | .UNKNOWN => ['?']

/-- `Result.from_str`: parses a line into a `Result`; the Python
`assert False` branch for any other string is modelled as `none`. -/
def Result.from_str (s : List Char) : Option Result :=
  if s = ['+'] then some Result.GOOD
  else if s = ['-'] then some Result.BAD
  else if s = ['?'] then some Result.UNKNOWN
  else none

/-- The error taxonomy of the spec; each Python `assert` site is mapped to
the error name the spec assigns to it. -/
inductive HabitError where
  | corruptState
  | alreadyMarked
  | backfillRequired
  | countMismatch
  | notFound
  | ambiguousTitle
deriving DecidableEq, Repr

/-- `Habit._get_num_missing_days`: with `numDays = today - startDate`, the
Python `assert len(series) <= num_days + 1` failing is
`.error .corruptState`; otherwise the returned count follows the
`including_today` flag exactly as in the source. -/
def get_num_missing_days (today startDate : Int) (series : List Result)
    (includingToday : Bool) : Except HabitError Int :=
  let numDays := today - startDate
  if (series.length : Int) ≤ numDays + 1 then
    if includingToday then Except.ok (numDays - series.length + 1)
    else if (series.length : Int) = numDays + 1 then Except.ok 0
    else Except.ok (numDays - series.length)
  else Except.error HabitError.corruptState

/-- The per-habit mutable state acted on by `mark_today` and
`mark_missing_days`: the fields `self._start_date_str` (as a day ordinal)
and `self._series`. -/
structure HabitState where
  startDate : Int
  series : List Result
deriving DecidableEq, Repr

/-- `Habit.mark_today`: the asserts fire in source order — first
`num_missing_days > 0` ("Today is already marked!"), then
`num_missing_days == 1` ("There are other days missing!"); on success the
result is appended to the series. -/
def mark_today (today : Int) (st : HabitState) (result : Result) :
    Except HabitError HabitState :=
  match get_num_missing_days today st.startDate st.series true with
  | Except.error e => Except.error e
  | Except.ok n =>
    if 0 < n then
      if n = 1 then Except.ok { st with series := st.series ++ [result] }
      else Except.error HabitError.backfillRequired
    else Except.error HabitError.alreadyMarked

/-- `Habit.mark_missing_days`: asserts that the missing-day count for the
given flag equals `len(results)`, then extends the series with `results`. -/
def mark_missing_days (today : Int) (st : HabitState) (results : List Result)
    (includingToday : Bool) : Except HabitError HabitState :=
  match get_num_missing_days today st.startDate st.series includingToday with
  | Except.error e => Except.error e
  | Except.ok n =>
    if n = (results.length : Int) then
      Except.ok { st with series := st.series ++ results }
    else Except.error HabitError.countMismatch

/-- `Habit.is_today_marked`: whether the missing-day count including today
is zero. -/
def is_today_marked (today : Int) (st : HabitState) : Except HabitError Bool :=
  match get_num_missing_days today st.startDate st.series true with
  | Except.error e => Except.error e
  | Except.ok n => Except.ok (n == 0)

/-- The series-length invariant of the spec, evaluated at a given `today`:
`len(series) <= (today - startDate).days + 1`. -/
def SeriesInv (today : Int) (st : HabitState) : Prop :=
  (st.series.length : Int) ≤ today - st.startDate + 1



/-- The separator line `Habit._SEP` of the record format. -/
def SEP : List Char := "-#-#-#-#-#-#-#-#-#-#-#-#-#-#-#-#-#-#-#-#-".toList

/-- `Habit._write_habit`, at the line level: the flat text written is
`title`, `SEP`, `description`, `SEP`, `start_date_str` and the
newline-joined series values, each followed by a newline; `splitlines` of
that text yields this list (the final newline contributes no line, an
empty series contributes exactly one empty line, and a nonempty series its
one-character value lines). -/
def write_habit_lines (title description start_date_str : List Char)
    (series : List Result) : List (List Char) :=
  [title, SEP] ++ description.splitOn NL ++ [SEP, start_date_str] ++
    (if series = [] then [[]] else series.map Result.value)

/-- Python's `list.index(SEP)`: the index of the first occurrence of the
separator (the length if there is none, the case in which Python raises
`ValueError` — unreachable where `_read_habit` uses it). -/
def idxOfSep : List (List Char) → Nat
  | [] => 0
  | l :: ls => if l = SEP then 0 else idxOfSep ls + 1

/-- The index of the last occurrence of the separator, computed as in
`_read_habit`: `len(lines) - lines[::-1].index(SEP) - 1`. -/
def lastSepIdx (lines : List (List Char)) : Nat :=
  lines.length - idxOfSep lines.reverse - 1

/-- The series-section decoder: the Python comprehension
`[Result.from_str(line) for line in series_lines]`, which aborts at the
first unparsable line. -/
def decodeSeries : List (List Char) → Option (List Result)
  | [] => some []
  | l :: ls =>
    match Result.from_str l, decodeSeries ls with
    | some r, some rs => some (r :: rs)
    | _, _ => none

/-- `Habit._read_habit`, at the line level: `none` models any failing
assertion as well as the `IndexError`/`ValueError` exits (out-of-range
indexing, separator not found).  The checks run in source order: the
`lines[1]` access and comparison, the two index assertions, the
`lines[second_sep_idx + 1]` access, then the series parse. -/
def read_habit_lines (lines : List (List Char)) :
    Option (List Char × List Char × List Char × List Result) :=
  match lines[1]? with
  | none => none
  | some l1 =>
    if l1 = SEP then
      if lastSepIdx lines = 1 ∨ lastSepIdx lines = 2 then none
      else
        match lines[lastSepIdx lines + 1]? with
        | none => none
        | some start_date_str =>
          match (if lines.drop (lastSepIdx lines + 2) = [[]] then some []
                 else decodeSeries (lines.drop (lastSepIdx lines + 2))) with
          | some series =>
            some (lines.headI,
              [NL].intercalate ((lines.drop 2).take (lastSepIdx lines - 2)),
              start_date_str, series)
          | none => none
    else none

/-- Modelled from the spec: the decode-failure condition exactly as the
spec lists it — fewer than 2 lines, line 1 not the separator, no separator
after line 1, the last separator adjacent to the first (index 2), or a
series line that is not one of `+`, `-`, `?`. -/
def claimedRecordFailure (lines : List (List Char)) : Prop :=
  lines.length < 2 ∨
  lines[1]? ≠ some SEP ∨
  (∀ l ∈ lines.drop 2, l ≠ SEP) ∨
  lastSepIdx lines = 2 ∨
  (lines.drop (lastSepIdx lines + 2) ≠ [[]] ∧
    ∃ l ∈ lines.drop (lastSepIdx lines + 2), Result.from_str l = none)

/-- The failure condition the code actually implements: the spec list plus
one more case, the last separator being the final line of the record (the
start-date access is then out of range). -/
def recordFailure (lines : List (List Char)) : Prop :=
  claimedRecordFailure lines ∨ lastSepIdx lines + 1 = lines.length

/-- `Habit._find_latest_habit_id`: the stored habit ids are the names of
the record files, modelled by their integer values; an empty store gives
`-1`, otherwise the Python `max` of the ids. -/
def find_latest_habit_id (habit_ids : List Int) : Int :=
  match habit_ids with
  | [] => -1
  | x :: xs => xs.foldl max x

/-- A full habit record as constructed by `Habit.__init__`. -/
structure HabitRecord where
  habit_id : Int
  title : List Char
  description : List Char
  start_date_str : List Char
  series : List Result
deriving DecidableEq, Repr

/-- `Habit.create`: allocates `latest + 1` and returns the new record
together with the unchanged store — the source only ensures the container
directory exists and writes no record (persisting is the separate,
explicit `save`). -/
def create (stored_ids : List Int) (title description start_date_str : List Char)
    (series : List Result) : HabitRecord × List Int :=
  ({ habit_id := find_latest_habit_id stored_ids + 1, title := title,
     description := description, start_date_str := start_date_str,
     series := series }, stored_ids)

/-- The case-insensitive comparison
`found_title.lower() == title.lower()` of `_find_habit_id`, lowering
character by character. -/
def titleMatches (title : List Char) (p : Int × List Char) : Bool :=
  p.2.map Char.toLower == title.map Char.toLower

/-- The search loop of `Habit._find_habit_id` over the stored
`(id, title)` pairs: a second case-insensitive match trips the ambiguity
assertion at once; otherwise the unique match (if any) is carried
through. -/
def find_habit_id_loop (store : List (Int × List Char)) (title : List Char)
    (acc : Option Int) : Except HabitError (Option Int) :=
  match store with
  | [] => Except.ok acc
  | p :: rest =>
    if titleMatches title p then
      match acc with
      | some _ => Except.error HabitError.ambiguousTitle
      | none => find_habit_id_loop rest title (some p.1)
    else find_habit_id_loop rest title acc

/-- `Habit._find_habit_id`: the final assertion (`desired_habit_id is not
None`) failing is `NotFoundError`. -/
def find_habit_id (store : List (Int × List Char)) (title : List Char) :
    Except HabitError Int :=
  match find_habit_id_loop store title none with
  | Except.error e => Except.error e
  | Except.ok none => Except.error HabitError.notFound
  | Except.ok (some i) => Except.ok i

/-- Decidability of the spec-worded failure condition. -/
instance (lines : List (List Char)) : Decidable (claimedRecordFailure lines) := by
  unfold claimedRecordFailure
  infer_instance

/-- Decidability of the implemented failure condition. -/
instance (lines : List (List Char)) : Decidable (recordFailure lines) := by
  unfold recordFailure
  infer_instance

/-- The invariant is decidable, so witnesses can discharge it by `decide`. -/
instance (today : Int) (st : HabitState) : Decidable (SeriesInv today st) := by
  unfold SeriesInv
  infer_instance

/-- Helper: when the length guard fails, the computation reports corrupt
state. -/
lemma get_num_missing_days_error (today startDate : Int) (series : List Result)
    (incl : Bool) (hc : ¬ (series.length : Int) ≤ today - startDate + 1) :
    get_num_missing_days today startDate series incl =
      Except.error HabitError.corruptState := by
  simp [get_num_missing_days, hc]

/-- Helper: under the length guard, the count including today is
`numDays - len + 1`. -/
lemma get_num_missing_days_true (today startDate : Int) (series : List Result)
    (h2 : (series.length : Int) ≤ today - startDate + 1) :
    get_num_missing_days today startDate series true =
      Except.ok (today - startDate - series.length + 1) := by
  simp [get_num_missing_days, h2]

/-- Helper: under the length guard, the count excluding today is `0` when
even today is recorded and `numDays - len` otherwise. -/
lemma get_num_missing_days_false (today startDate : Int) (series : List Result)
    (h2 : (series.length : Int) ≤ today - startDate + 1) :
    get_num_missing_days today startDate series false =
      Except.ok (if (series.length : Int) = today - startDate + 1 then 0
        else today - startDate - series.length) := by
  simp only [get_num_missing_days, if_pos h2, Bool.false_eq_true, if_false]
  split <;> rfl

/-- C1: for every habit state with `today ≥ startDate` and
`len(series) ≤ numDays + 1`, the missing-day computation returns
`numDays - len(series) + 1` when `includingToday` is true, and when it is
false returns `0` if `len(series) = numDays + 1` and `numDays - len(series)`
otherwise, where `numDays = today - startDate` in whole days. -/
theorem missing_days_formula (today startDate : Int) (series : List Result)
    (includingToday : Bool) (h1 : startDate ≤ today)
    (h2 : (series.length : Int) ≤ today - startDate + 1) :
    get_num_missing_days today startDate series includingToday =
      Except.ok
        (if includingToday then today - startDate - series.length + 1
         else if (series.length : Int) = today - startDate + 1 then 0
         else today - startDate - series.length) := by
  cases includingToday
  · simpa using get_num_missing_days_false today startDate series h2
  · simpa using get_num_missing_days_true today startDate series h2

/-- Witness for C1 at a concrete state: start day 0, today day 3, one
recorded result, including today. -/
theorem missing_days_formula_witness :
    get_num_missing_days 3 0 [Result.GOOD] true = Except.ok 3 := by
  have h := missing_days_formula 3 0 [Result.GOOD] true (by decide) (by decide)
  simpa using h

/-- C2 counterexample: with `today = startDate - 1` and an empty series the
missing-day computation does not fail at all — it returns `0` for both
flags, `is_today_marked` returns `true`, and `mark_missing_days []`
succeeds. -/
theorem missing_days_before_start_counterexample :
    get_num_missing_days 0 1 [] true = Except.ok 0 ∧
    get_num_missing_days 0 1 [] false = Except.ok 0 ∧
    is_today_marked 0 ⟨1, []⟩ = Except.ok true ∧
    mark_missing_days 0 ⟨1, []⟩ [] true = Except.ok ⟨1, []⟩ :=
  ⟨rfl, rfl, rfl, rfl⟩

/-- C2 (amended): when `today` strictly precedes `startDate` the
missing-day computation fails (with the invariant assertion, the only check
the code performs) in every case except the single state where the series
is empty and `today = startDate - 1`, in which case it returns `0`. -/
theorem missing_days_before_start (today startDate : Int) (series : List Result)
    (includingToday : Bool) (h : today < startDate) :
    if series = [] ∧ today = startDate - 1 then
      get_num_missing_days today startDate series includingToday = Except.ok 0
    else
      get_num_missing_days today startDate series includingToday =
        Except.error HabitError.corruptState := by
  split
  · rename_i hc
    obtain ⟨hs, ht⟩ := hc
    subst hs
    subst ht
    cases includingToday <;> simp [get_num_missing_days]
  · rename_i hc
    have hlen : ¬ ((series.length : Int) ≤ today - startDate + 1) := by
      rcases Nat.eq_zero_or_pos series.length with h0 | hpos
      · have hs : series = [] := List.length_eq_zero.mp h0
        have ht : today ≠ startDate - 1 := fun haux => hc ⟨hs, haux⟩
        omega
      · omega
    simp [get_num_missing_days, hlen]

/-- Witness for the amended C2: a nonempty series one day before the start
date fails the computation. -/
theorem missing_days_before_start_witness :
    get_num_missing_days 0 1 [Result.GOOD] true =
      Except.error HabitError.corruptState := by
  have h := missing_days_before_start 0 1 [Result.GOOD] true (by decide)
  rw [if_neg (by simp)] at h
  exact h

/-- C10: with `today ≥ startDate` and the invariant holding, the two
missing-day counts are linked: both are `0` when today is already recorded
(`len = numDays + 1`), and the including-today count exceeds the excluding
count by exactly one otherwise; the including-today count is never
negative, so `is_today_marked` returns a value. -/
theorem missing_days_flags (today startDate : Int) (series : List Result)
    (h1 : startDate ≤ today)
    (h2 : (series.length : Int) ≤ today - startDate + 1) :
    get_num_missing_days today startDate series true =
      Except.ok (today - startDate - series.length + 1) ∧
    0 ≤ today - startDate - series.length + 1 ∧
    is_today_marked today ⟨startDate, series⟩ =
      Except.ok (today - startDate - series.length + 1 == 0) ∧
    ((series.length : Int) = today - startDate + 1 →
      today - startDate - series.length + 1 = 0 ∧
      get_num_missing_days today startDate series false = Except.ok 0) ∧
    ((series.length : Int) ≠ today - startDate + 1 →
      get_num_missing_days today startDate series false =
        Except.ok (today - startDate - series.length + 1 - 1)) := by
  refine ⟨get_num_missing_days_true today startDate series h2, by omega, ?_, ?_, ?_⟩
  · simp only [is_today_marked,
      get_num_missing_days_true today startDate series h2]
  · intro heq
    refine ⟨by omega, ?_⟩
    rw [get_num_missing_days_false today startDate series h2, if_pos heq]
  · intro hne
    rw [get_num_missing_days_false today startDate series h2, if_neg hne]
    congr 1
    omega

/-- Witness for C10 at a concrete state: start day 0, today day 2, one
recorded result. -/
theorem missing_days_flags_witness :
    get_num_missing_days 2 0 [Result.GOOD] true = Except.ok 2 ∧
    get_num_missing_days 2 0 [Result.GOOD] false = Except.ok 1 := by
  have h := missing_days_flags 2 0 [Result.GOOD] (by decide) (by decide)
  refine ⟨by simpa using h.1, ?_⟩
  have h5 := h.2.2.2.2 (by decide)
  simpa using h5

/-- C3: the series-length invariant is preserved by every successful
`mark_today` and `mark_missing_days` (evaluated at the same `today`), and
every operation that computes missing days fails with the corrupt-state
error on a state violating the invariant. -/
theorem invariant_preserved (today : Int) (st : HabitState) :
    (st.startDate ≤ today → SeriesInv today st →
      (∀ r st2, mark_today today st r = Except.ok st2 → SeriesInv today st2) ∧
      (∀ results incl st2,
        mark_missing_days today st results incl = Except.ok st2 →
          SeriesInv today st2)) ∧
    (¬ SeriesInv today st →
      (∀ incl, get_num_missing_days today st.startDate st.series incl =
          Except.error HabitError.corruptState) ∧
      (∀ r, mark_today today st r = Except.error HabitError.corruptState) ∧
      (∀ results incl, mark_missing_days today st results incl =
          Except.error HabitError.corruptState) ∧
      is_today_marked today st = Except.error HabitError.corruptState) := by
  constructor
  · intro h1 h2
    constructor
    · intro r st2 hok
      have hg := get_num_missing_days_true today st.startDate st.series h2
      simp only [mark_today, hg] at hok
      split_ifs at hok with ha hb
      · injection hok with hok
        subst hok
        show ((st.series ++ [r]).length : Int) ≤ today - st.startDate + 1
        simp only [List.length_append, List.length_singleton]
        push_cast
        omega
    · intro results incl st2 hok
      cases incl
      · have hg := get_num_missing_days_false today st.startDate st.series h2
        simp only [mark_missing_days, hg] at hok
        by_cases hp : (st.series.length : Int) = today - st.startDate + 1
        · rw [if_pos hp] at hok
          split_ifs at hok with hc
          · injection hok with hok
            subst hok
            show ((st.series ++ results).length : Int) ≤ today - st.startDate + 1
            simp only [List.length_append]
            push_cast
            omega
        · rw [if_neg hp] at hok
          split_ifs at hok with hc
          · injection hok with hok
            subst hok
            show ((st.series ++ results).length : Int) ≤ today - st.startDate + 1
            simp only [List.length_append]
            push_cast
            omega
      · have hg := get_num_missing_days_true today st.startDate st.series h2
        simp only [mark_missing_days, hg] at hok
        split_ifs at hok with hc
        · injection hok with hok
          subst hok
          show ((st.series ++ results).length : Int) ≤ today - st.startDate + 1
          simp only [List.length_append]
          push_cast
          omega
  · intro hni
    have hc : ¬ (st.series.length : Int) ≤ today - st.startDate + 1 := hni
    refine ⟨fun incl => get_num_missing_days_error _ _ _ incl hc, ?_, ?_, ?_⟩
    · intro r
      simp [mark_today, get_num_missing_days_error _ _ _ true hc]
    · intro results incl
      simp [mark_missing_days, get_num_missing_days_error _ _ _ incl hc]
    · simp [is_today_marked, get_num_missing_days_error _ _ _ true hc]

/-- Witness for C3: marking day 1 on a one-entry habit preserves the
invariant, and a two-entry series on day 0 is corrupt for every operation. -/
theorem invariant_preserved_witness :
    SeriesInv 1 ⟨0, [Result.GOOD, Result.BAD]⟩ ∧
    get_num_missing_days 0 0 [Result.GOOD, Result.BAD] true =
      Except.error HabitError.corruptState := by
  have hA := ((invariant_preserved 1 ⟨0, [Result.GOOD]⟩).1 (by decide)
    (by decide)).1 Result.BAD ⟨0, [Result.GOOD, Result.BAD]⟩ rfl
  have hB := ((invariant_preserved 0 ⟨0, [Result.GOOD, Result.BAD]⟩).2
    (by decide)).1 true
  exact ⟨hA, hB⟩

/-- C4: with `today ≥ startDate` and the invariant holding, `mark_today`
fails with `AlreadyMarkedError` when the count including today is `0`,
with `BackfillRequiredError` when it exceeds `1`, and when it is exactly
`1` appends the result and nothing else; after that success
`is_today_marked` is `true` and a second `mark_today` fails with
`AlreadyMarkedError`. -/
theorem mark_today_spec (today : Int) (st : HabitState) (r : Result)
    (h1 : st.startDate ≤ today) (h2 : SeriesInv today st) :
    (today - st.startDate - st.series.length + 1 = 0 →
      mark_today today st r = Except.error HabitError.alreadyMarked) ∧
    (1 < today - st.startDate - st.series.length + 1 →
      mark_today today st r = Except.error HabitError.backfillRequired) ∧
    (today - st.startDate - st.series.length + 1 = 1 →
      mark_today today st r = Except.ok { st with series := st.series ++ [r] } ∧
      is_today_marked today { st with series := st.series ++ [r] } =
        Except.ok true ∧
      ∀ r2, mark_today today { st with series := st.series ++ [r] } r2 =
        Except.error HabitError.alreadyMarked) := by
  have hg := get_num_missing_days_true today st.startDate st.series h2
  refine ⟨?_, ?_, ?_⟩
  · intro hm
    simp only [mark_today, hg]
    rw [if_neg (by omega)]
  · intro hm
    simp only [mark_today, hg]
    rw [if_pos (by omega), if_neg (by omega)]
  · intro hm
    have hlen2 : (((st.series ++ [r]).length : Int)) ≤ today - st.startDate + 1 := by
      simp only [List.length_append, List.length_singleton]
      push_cast
      omega
    have hg2 := get_num_missing_days_true today st.startDate (st.series ++ [r]) hlen2
    have hval : today - st.startDate - ((st.series ++ [r]).length : Int) + 1 = 0 := by
      simp only [List.length_append, List.length_singleton]
      push_cast
      omega
    refine ⟨?_, ?_, ?_⟩
    · simp only [mark_today, hg]
      rw [if_pos (by omega), if_pos (by omega)]
    · simp only [is_today_marked, hg2, hval]
      rfl
    · intro r2
      simp only [mark_today, hg2, hval]
      rw [if_neg (by omega)]

/-- Witness for C4: a fresh habit started today accepts exactly one mark,
after which today reads as marked and a second mark is rejected. -/
theorem mark_today_spec_witness :
    mark_today 0 ⟨0, []⟩ Result.GOOD = Except.ok ⟨0, [Result.GOOD]⟩ ∧
    is_today_marked 0 ⟨0, [Result.GOOD]⟩ = Except.ok true ∧
    mark_today 0 ⟨0, [Result.GOOD]⟩ Result.BAD =
      Except.error HabitError.alreadyMarked := by
  have h := (mark_today_spec 0 ⟨0, []⟩ Result.GOOD (by decide) (by decide)).2.2
    (by decide)
  exact ⟨h.1, h.2.1, h.2.2 Result.BAD⟩

/-- C5: with `today ≥ startDate` and the invariant holding,
`mark_missing_days` fails with `CountMismatchError` whenever the number of
supplied results differs from the computed count for the flag, and with the
exact count it appends all the results in order; with `includingToday`
true, a successful call makes `is_today_marked` return `true`. -/
theorem mark_missing_days_spec (today : Int) (st : HabitState)
    (results : List Result) (incl : Bool) (m : Int)
    (h1 : st.startDate ≤ today) (h2 : SeriesInv today st)
    (hm : get_num_missing_days today st.startDate st.series incl =
      Except.ok m) :
    ((results.length : Int) ≠ m →
      mark_missing_days today st results incl =
        Except.error HabitError.countMismatch) ∧
    ((results.length : Int) = m →
      mark_missing_days today st results incl =
        Except.ok { st with series := st.series ++ results } ∧
      (incl = true →
        is_today_marked today { st with series := st.series ++ results } =
          Except.ok true)) := by
  refine ⟨?_, ?_⟩
  · intro hne
    simp only [mark_missing_days, hm]
    rw [if_neg (by omega)]
  · intro heq
    refine ⟨?_, ?_⟩
    · simp only [mark_missing_days, hm]
      rw [if_pos (by omega)]
    · rintro rfl
      have hmv : m = today - st.startDate - st.series.length + 1 := by
        have h3 := get_num_missing_days_true today st.startDate st.series h2
        rw [hm] at h3
        injection h3
      have hlen2 : (((st.series ++ results).length : Int)) ≤
          today - st.startDate + 1 := by
        simp only [List.length_append]
        push_cast
        omega
      have hval : today - st.startDate - ((st.series ++ results).length : Int)
          + 1 = 0 := by
        simp only [List.length_append]
        push_cast
        omega
      simp only [is_today_marked,
        get_num_missing_days_true today st.startDate (st.series ++ results)
          hlen2, hval]
      rfl

/-- Witness for C5: backfilling two missing days (including today) with two
results succeeds and marks today; supplying one result is rejected. -/
theorem mark_missing_days_spec_witness :
    mark_missing_days 1 ⟨0, []⟩ [Result.GOOD, Result.BAD] true =
      Except.ok ⟨0, [Result.GOOD, Result.BAD]⟩ ∧
    is_today_marked 1 ⟨0, [Result.GOOD, Result.BAD]⟩ = Except.ok true ∧
    mark_missing_days 1 ⟨0, []⟩ [Result.GOOD] true =
      Except.error HabitError.countMismatch := by
  have hA := (mark_missing_days_spec 1 ⟨0, []⟩ [Result.GOOD, Result.BAD] true 2
    (by decide) (by decide) rfl).2 (by decide)
  have hB := (mark_missing_days_spec 1 ⟨0, []⟩ [Result.GOOD] true 2
    (by decide) (by decide) rfl).1 (by decide)
  exact ⟨hA.1, hA.2 rfl, hB⟩

/-- Helper: no wire value of a `Result` equals the separator line. -/
lemma result_value_ne_sep (r : Result) : r.value ≠ SEP := by
  cases r <;> decide

/-- Helper: wire values of `Result` are nonempty lines. -/
lemma result_value_ne_nil (r : Result) : r.value ≠ [] := by
  cases r <;> decide

/-- Helper: parsing a wire value gives back the `Result`. -/
lemma from_str_value (r : Result) : Result.from_str r.value = some r := by
  cases r <;> rfl

/-- Helper: the series decoder inverts the value map. -/
lemma decodeSeries_map_value (series : List Result) :
    decodeSeries (series.map Result.value) = some series := by
  induction series with
  | nil => rfl
  | cons r rs ih => simp [decodeSeries, from_str_value, ih]

/-- Helper: a nonempty series never encodes as the single empty line. -/
lemma map_value_ne_single_nil (series : List Result) (h : series ≠ []) :
    series.map Result.value ≠ [[]] := by
  cases series with
  | nil => exact absurd rfl h
  | cons r rs =>
    intro hc
    rw [List.map_cons] at hc
    cases r <;> simp [Result.value] at hc

/-- Helper: splitting on newlines never yields the empty list of lines. -/
lemma splitOn_NL_ne_nil (s : List Char) : s.splitOn NL ≠ [] := by
  simp only [List.splitOn]
  exact List.splitOnP_ne_nil _ _

/-- Helper: the first-occurrence index over a separator-free prefix. -/
lemma idxOfSep_append_of_not_mem (L1 L2 : List (List Char)) (h : SEP ∉ L1) :
    idxOfSep (L1 ++ L2) = L1.length + idxOfSep L2 := by
  induction L1 with
  | nil => simp [idxOfSep]
  | cons l ls ih =>
    have hne : l ≠ SEP := fun he => h (he ▸ List.mem_cons_self l ls)
    have hnm : SEP ∉ ls := fun hm => h (List.mem_cons_of_mem l hm)
    simp [idxOfSep, hne, ih hnm]
    omega

/-- Helper: the last-separator index of a list whose final separator
occurrence is at position `l₁.length`. -/
lemma lastSepIdx_append (l₁ l₂ : List (List Char)) (h : SEP ∉ l₂) :
    lastSepIdx (l₁ ++ SEP :: l₂) = l₁.length := by
  unfold lastSepIdx
  rw [List.reverse_append, List.reverse_cons]
  have hnm : SEP ∉ l₂.reverse := by simpa using h
  have h0 : idxOfSep ([SEP] ++ l₁.reverse) = 0 := by
    simp [idxOfSep]
  rw [List.append_assoc, idxOfSep_append_of_not_mem _ _ hnm, h0]
  simp only [Nat.add_zero, List.length_append, List.length_cons,
    List.length_reverse]
  omega

/-- Helper: element lookup just after a marked position. -/
lemma getElem_len_add_one (L M : List (List Char)) (x y : List Char) :
    (L ++ x :: y :: M)[L.length + 1]? = some y := by
  rw [List.getElem?_append_right (by omega)]
  simp

/-- Helper: dropping past a two-line marker. -/
lemma drop_len_add_two (L M : List (List Char)) (x y : List Char) :
    (L ++ x :: y :: M).drop (L.length + 2) = M := by
  have hsplit : L ++ x :: y :: M = (L ++ [x, y]) ++ M := by simp
  have hlen : (L ++ [x, y]).length = L.length + 2 := by simp
  rw [hsplit, ← hlen, List.drop_left]

/-- C6 counterexample: a habit whose stored start-date string happens to be
the separator line round-trips to a different record (its description
absorbs the structural separator), so the claim without a condition on the
start-date string is false. -/
theorem write_read_round_trip_counterexample :
    read_habit_lines (write_habit_lines ['t'] ['d'] SEP []) ≠
      some (['t'], ['d'], SEP, []) := by
  decide

/-- C6 (amended): for every habit whose title is non-empty single-line
text, whose description contains no line equal to the separator, and whose
start-date string is not the separator line (true of every real date
string `Y-M-D`), decoding the encoded record yields exactly the original
title, description, start-date string and series — including the
empty-series and empty-description cases. -/
theorem write_read_round_trip (title description sds : List Char)
    (series : List Result) (hT1 : title ≠ []) (hT2 : NL ∉ title)
    (hD : ∀ l ∈ description.splitOn NL, l ≠ SEP) (hS : sds ≠ SEP) :
    read_habit_lines (write_habit_lines title description sds series) =
      some (title, description, sds, series) := by
  have hshape : write_habit_lines title description sds series =
      ([title, SEP] ++ description.splitOn NL) ++ SEP :: sds ::
        (if series = [] then [[]] else series.map Result.value) := by
    unfold write_habit_lines
    simp
  have hcons : write_habit_lines title description sds series =
      title :: SEP :: (description.splitOn NL ++ SEP :: sds ::
        (if series = [] then [[]] else series.map Result.value)) := by
    rw [hshape]
    simp
  have hnotm : SEP ∉ sds ::
      (if series = [] then [[]] else series.map Result.value) := by
    intro hm
    rcases List.mem_cons.mp hm with hm | hm
    · exact hS hm.symm
    · by_cases hs : series = []
      · rw [if_pos hs] at hm
        simp at hm
        exact absurd hm (by decide)
      · rw [if_neg hs] at hm
        obtain ⟨r, _, hv⟩ := List.mem_map.mp hm
        exact result_value_ne_sep r hv
  have hlast : lastSepIdx (write_habit_lines title description sds series) =
      2 + (description.splitOn NL).length := by
    rw [hshape, lastSepIdx_append _ _ hnotm]
    simp only [List.length_append, List.length_cons, List.length_nil]
  have hdlen : 0 < (description.splitOn NL).length :=
    List.length_pos.mpr (splitOn_NL_ne_nil description)
  have h1 : (write_habit_lines title description sds series)[1]? = some SEP := by
    rw [hcons]
    simp
  have hLlen : 2 + (description.splitOn NL).length =
      ([title, SEP] ++ description.splitOn NL).length := by
    simp only [List.length_append, List.length_cons, List.length_nil]
  have hsdseq : (write_habit_lines title description sds series)[
      lastSepIdx (write_habit_lines title description sds series) + 1]? =
      some sds := by
    rw [hlast, hshape, hLlen, getElem_len_add_one]
  have hdrop : (write_habit_lines title description sds series).drop
      (lastSepIdx (write_habit_lines title description sds series) + 2) =
      (if series = [] then [[]] else series.map Result.value) := by
    rw [hlast, hshape, hLlen, drop_len_add_two]
  have htake : ((write_habit_lines title description sds series).drop 2).take
      (lastSepIdx (write_habit_lines title description sds series) - 2) =
      description.splitOn NL := by
    rw [hlast, hcons]
    have h22 : 2 + (description.splitOn NL).length - 2 =
        (description.splitOn NL).length := by omega
    simp only [List.drop_succ_cons, List.drop_zero, h22]
    exact List.take_left _ _
  have hhead : (write_habit_lines title description sds series).headI =
      title := by
    rw [hcons]
    rfl
  have hguard : ¬ (lastSepIdx (write_habit_lines title description sds series)
      = 1 ∨
      lastSepIdx (write_habit_lines title description sds series) = 2) := by
    rw [hlast]
    omega
  have hser : (if (write_habit_lines title description sds series).drop
        (lastSepIdx (write_habit_lines title description sds series) + 2) =
        [[]] then some []
      else decodeSeries ((write_habit_lines title description sds series).drop
        (lastSepIdx (write_habit_lines title description sds series) + 2))) =
      some series := by
    rw [hdrop]
    by_cases hs : series = []
    · subst hs
      simp
    · simp [hs, map_value_ne_single_nil series hs, decodeSeries_map_value]
  simp only [read_habit_lines, h1, if_pos rfl, if_neg hguard, hsdseq, hser,
    hhead, htake, List.intercalate_splitOn]
  simp

/-- Witness for the amended C6 at a concrete habit record. -/
theorem write_read_round_trip_witness :
    read_habit_lines (write_habit_lines ['t'] ['d'] ['2'] [Result.GOOD]) =
      some (['t'], ['d'], ['2'], [Result.GOOD]) :=
  write_read_round_trip ['t'] ['d'] ['2'] [Result.GOOD] (by decide) (by decide)
    (by decide) (by decide)

/-- Helper: the series decoder fails exactly when some line is
unparsable. -/
lemma decodeSeries_eq_none_iff (ls : List (List Char)) :
    decodeSeries ls = none ↔ ∃ l ∈ ls, Result.from_str l = none := by
  induction ls with
  | nil => simp [decodeSeries]
  | cons l ls ih =>
    cases hf : Result.from_str l with
    | none =>
      cases hd : decodeSeries ls with
      | none =>
        simp only [decodeSeries, hf, hd]
        exact iff_of_true trivial ⟨l, List.mem_cons_self l ls, hf⟩
      | some rs =>
        simp only [decodeSeries, hf, hd]
        exact iff_of_true trivial ⟨l, List.mem_cons_self l ls, hf⟩
    | some r =>
      cases hd : decodeSeries ls with
      | none =>
        simp only [decodeSeries, hf, hd]
        refine iff_of_true trivial ?_
        obtain ⟨x, hx, hxf⟩ := ih.mp hd
        exact ⟨x, List.mem_cons_of_mem l hx, hxf⟩
      | some rs =>
        simp only [decodeSeries, hf, hd]
        constructor
        · intro hcon
          exact absurd hcon (by simp)
        · rintro ⟨x, hx, hxf⟩
          rcases List.mem_cons.mp hx with hx1 | hx2
          · rw [hx1, hf] at hxf
            exact Option.noConfusion hxf
          · have hcon := ih.mpr ⟨x, hx2, hxf⟩
            rw [hd] at hcon
            exact Option.noConfusion hcon

/-- Helper: every list containing the separator splits at its last
occurrence. -/
lemma exists_last_split {l : List (List Char)} (h : SEP ∈ l) :
    ∃ l₁ l₂, l = l₁ ++ SEP :: l₂ ∧ SEP ∉ l₂ := by
  induction l with
  | nil => cases h
  | cons x xs ih =>
    by_cases hx : SEP ∈ xs
    · obtain ⟨l₁, l₂, heq, hn⟩ := ih hx
      exact ⟨x :: l₁, l₂, by rw [heq]; rfl, hn⟩
    · have hxe : x = SEP := by
        rcases List.mem_cons.mp h with h1 | h1
        · exact h1.symm
        · exact absurd h1 hx
      exact ⟨[], xs, by simp [hxe], hx⟩

/-- C7 counterexample: the record whose last separator is its final line
(title, separator, description, separator, and nothing after) fails to
decode even though none of the failure conditions the spec lists holds. -/
theorem read_habit_failure_counterexample :
    read_habit_lines [['t'], SEP, ['d'], SEP] = none ∧
    ¬ claimedRecordFailure [['t'], SEP, ['d'], SEP] :=
  ⟨by decide, by decide⟩

/-- C7 (amended): decoding fails exactly when the record has fewer than 2
lines, or line 1 is not the separator, or no separator occurs after line
1, or the last separator is at index 2 (adjacent to the first), or the
last separator is the final line (no start-date line follows it), or some
series line is not one of `+`, `-`, `?`; it succeeds on all other
inputs. -/
theorem read_habit_failure_iff (lines : List (List Char)) :
    read_habit_lines lines = none ↔ recordFailure lines := by
  match lines with
  | [] =>
    exact iff_of_true rfl (Or.inl (Or.inl (by simp)))
  | [a] =>
    exact iff_of_true rfl (Or.inl (Or.inl (by simp)))
  | a :: b :: rest =>
    by_cases hb : b = SEP
    case neg =>
      have h1 : (a :: b :: rest)[1]? = some b := by simp
      have hL : read_habit_lines (a :: b :: rest) = none := by
        simp only [read_habit_lines, h1, if_neg hb]
      exact iff_of_true hL (Or.inl (Or.inr (Or.inl (by simp [h1, hb]))))
    case pos =>
      subst hb
      have h1 : (a :: SEP :: rest)[1]? = some SEP := by simp
      by_cases hrest : SEP ∈ rest
      case neg =>
        have hL1 : lastSepIdx (a :: SEP :: rest) = 1 := by
          have hax := lastSepIdx_append [a] rest hrest
          simpa using hax
        have hL : read_habit_lines (a :: SEP :: rest) = none := by
          simp only [read_habit_lines, h1, hL1]
          simp
        refine iff_of_true hL (Or.inl (Or.inr (Or.inr (Or.inl ?_))))
        intro l hl
        simp only [List.drop_succ_cons, List.drop_zero] at hl
        exact fun he => hrest (he ▸ hl)
      case pos =>
        obtain ⟨l₁, l₂, heq, hnot⟩ := exists_last_split hrest
        subst heq
        have hshape : a :: SEP :: (l₁ ++ SEP :: l₂) =
            (a :: SEP :: l₁) ++ SEP :: l₂ := by simp
        have hlast : lastSepIdx (a :: SEP :: (l₁ ++ SEP :: l₂)) =
            l₁.length + 2 := by
          rw [hshape, lastSepIdx_append _ _ hnot]
          simp
        have hlen : (a :: SEP :: (l₁ ++ SEP :: l₂)).length =
            l₁.length + l₂.length + 3 := by
          simp only [List.length_cons, List.length_append]
          omega
        have hmemdrop : SEP ∈ (a :: SEP :: (l₁ ++ SEP :: l₂)).drop 2 := by
          simp
        have hnC : ¬ (∀ l ∈ (a :: SEP :: (l₁ ++ SEP :: l₂)).drop 2,
            l ≠ SEP) := fun hall => hall SEP hmemdrop rfl
        by_cases h2 : l₁.length = 0
        · have hL : read_habit_lines (a :: SEP :: (l₁ ++ SEP :: l₂)) =
              none := by
            simp only [read_habit_lines, h1]
            rw [if_pos (Or.inr (by rw [hlast]; omega))]
            simp
          exact iff_of_true hL
            (Or.inl (Or.inr (Or.inr (Or.inr (Or.inl (by rw [hlast]; omega))))))
        · have hguard : ¬ (lastSepIdx (a :: SEP :: (l₁ ++ SEP :: l₂)) = 1 ∨
              lastSepIdx (a :: SEP :: (l₁ ++ SEP :: l₂)) = 2) := by
            rw [hlast]
            omega
          by_cases h3 : l₂ = []
          · subst h3
            simp only [List.length_nil] at hlen
            have hnone : (a :: SEP :: (l₁ ++ SEP :: ([] : List (List Char))))[
                lastSepIdx (a :: SEP :: (l₁ ++ SEP :: ([] : List (List Char))))
                  + 1]? = none := by
              rw [hlast]
              apply List.getElem?_eq_none
              omega
            have hL : read_habit_lines
                (a :: SEP :: (l₁ ++ SEP :: ([] : List (List Char)))) =
                none := by
              simp only [read_habit_lines, h1, if_neg hguard, hnone]
              simp
            refine iff_of_true hL (Or.inr ?_)
            rw [hlast, hlen]
          · obtain ⟨c, l₂x, rfl⟩ := List.exists_cons_of_ne_nil h3
            have hlen4 : (a :: SEP :: (l₁ ++ SEP :: c :: l₂x)).length =
                l₁.length + l₂x.length + 4 := by
              simp only [List.length_cons, List.length_append]
              omega
            have hshape2 : a :: SEP :: (l₁ ++ SEP :: c :: l₂x) =
                (a :: SEP :: l₁) ++ SEP :: c :: l₂x := by simp
            have hlen2 : l₁.length + 2 = (a :: SEP :: l₁).length := by simp
            have hsds : (a :: SEP :: (l₁ ++ SEP :: c :: l₂x))[
                lastSepIdx (a :: SEP :: (l₁ ++ SEP :: c :: l₂x)) + 1]? =
                some c := by
              rw [hlast, hshape2, hlen2, getElem_len_add_one]
            have hdrop : (a :: SEP :: (l₁ ++ SEP :: c :: l₂x)).drop
                (lastSepIdx (a :: SEP :: (l₁ ++ SEP :: c :: l₂x)) + 2) =
                l₂x := by
              rw [hlast, hshape2, hlen2, drop_len_add_two]
            by_cases h4 : l₂x = [[]]
            · have hL : read_habit_lines (a :: SEP :: (l₁ ++ SEP :: c :: l₂x))
                  = some ((a :: SEP :: (l₁ ++ SEP :: c :: l₂x)).headI,
                    [NL].intercalate
                      (((a :: SEP :: (l₁ ++ SEP :: c :: l₂x)).drop 2).take
                        (lastSepIdx (a :: SEP :: (l₁ ++ SEP :: c :: l₂x)) - 2)),
                    c, []) := by
                simp only [read_habit_lines, h1, if_neg hguard,
                  hsds, hdrop, if_pos h4]
                simp
              refine iff_of_false (by simp [hL]) ?_
              rintro ((hA | hB | hC | hD | hE) | hX)
              · rw [hlen4] at hA
                omega
              · exact hB h1
              · exact hnC hC
              · rw [hlast] at hD
                omega
              · rw [hdrop] at hE
                exact hE.1 h4
              · rw [hlast, hlen4] at hX
                omega
            · cases hdec : decodeSeries l₂x with
              | none =>
                have hL : read_habit_lines
                    (a :: SEP :: (l₁ ++ SEP :: c :: l₂x)) = none := by
                  simp only [read_habit_lines, h1, if_neg hguard,
                    hsds, hdrop, if_neg h4, hdec]
                  simp
                refine iff_of_true hL
                  (Or.inl (Or.inr (Or.inr (Or.inr (Or.inr ?_)))))
                rw [hdrop]
                exact ⟨h4, (decodeSeries_eq_none_iff l₂x).mp hdec⟩
              | some rs =>
                have hL : read_habit_lines (a :: SEP :: (l₁ ++ SEP :: c :: l₂x))
                    = some ((a :: SEP :: (l₁ ++ SEP :: c :: l₂x)).headI,
                      [NL].intercalate
                        (((a :: SEP :: (l₁ ++ SEP :: c :: l₂x)).drop 2).take
                          (lastSepIdx (a :: SEP :: (l₁ ++ SEP :: c :: l₂x)) - 2)),
                      c, rs) := by
                  simp only [read_habit_lines, h1, if_neg hguard,
                    hsds, hdrop, if_neg h4, hdec]
                  simp
                refine iff_of_false (by simp [hL]) ?_
                rintro ((hA | hB | hC | hD | hE) | hX)
                · rw [hlen4] at hA
                  omega
                · exact hB h1
                · exact hnC hC
                · rw [hlast] at hD
                  omega
                · rw [hdrop] at hE
                  have hcon := (decodeSeries_eq_none_iff l₂x).mpr hE.2
                  rw [hdec] at hcon
                  exact Option.noConfusion hcon
                · rw [hlast, hlen4] at hX
                  omega

/-- Helper: the fold computing Python's `max` is an upper bound. -/
lemma le_foldl_max (xs : List Int) : ∀ x : Int,
    x ≤ xs.foldl max x ∧ ∀ i ∈ xs, i ≤ xs.foldl max x := by
  induction xs with
  | nil =>
    intro x
    exact ⟨le_refl x, by simp⟩
  | cons y ys ih =>
    intro x
    have h := ih (max x y)
    refine ⟨le_trans (le_max_left x y) h.1, ?_⟩
    intro i hi
    rcases List.mem_cons.mp hi with hiy | hi2
    · exact le_trans (hiy ▸ le_max_right x y) h.1
    · exact h.2 i hi2

/-- Helper: the fold computing Python's `max` lands in the list or on the
seed. -/
lemma foldl_max_mem (xs : List Int) : ∀ x : Int,
    xs.foldl max x = x ∨ xs.foldl max x ∈ xs := by
  induction xs with
  | nil =>
    intro x
    exact Or.inl rfl
  | cons y ys ih =>
    intro x
    rcases ih (max x y) with h | h
    · rcases max_choice x y with hm | hm
      · exact Or.inl (by rw [List.foldl_cons, h, hm])
      · exact Or.inr (by rw [List.foldl_cons, h, hm]; exact List.mem_cons_self y ys)
    · exact Or.inr (List.mem_cons_of_mem y (by rw [List.foldl_cons]; exact h))

/-- Helper: on a nonempty store the latest id is a stored id and bounds all
stored ids. -/
lemma find_latest_spec (ids : List Int) (h : ids ≠ []) :
    find_latest_habit_id ids ∈ ids ∧ ∀ i ∈ ids, i ≤ find_latest_habit_id ids := by
  cases ids with
  | nil => exact absurd rfl h
  | cons x xs =>
    constructor
    · show xs.foldl max x ∈ x :: xs
      rcases foldl_max_mem xs x with h1 | h1
      · rw [h1]
        exact List.mem_cons_self x xs
      · exact List.mem_cons_of_mem x h1
    · intro i hi
      show i ≤ xs.foldl max x
      rcases List.mem_cons.mp hi with hix | hi2
      · exact hix ▸ (le_foldl_max xs x).1
      · exact (le_foldl_max xs x).2 i hi2

/-- C8: `create` allocates `max existing id + 1` (id `0` on an empty
store), never reuses removed ids (after ids 0,1,2 and removal of 1 the
store holds 0 and 2, and the next allocation is 3), and returns the new
record without changing the stored records. -/
theorem create_id_allocation :
    (∀ title description sds series,
      (create [] title description sds series).1.habit_id = 0) ∧
    (∀ ids title description sds series, ids ≠ [] →
      find_latest_habit_id ids ∈ ids ∧
      (∀ i ∈ ids, i ≤ find_latest_habit_id ids) ∧
      (create ids title description sds series).1.habit_id =
        find_latest_habit_id ids + 1) ∧
    (∀ ids title description sds series,
      (create ids title description sds series).2 = ids) ∧
    (∀ title description sds series,
      (create [0, 2] title description sds series).1.habit_id = 3) := by
  refine ⟨?_, ?_, ?_, ?_⟩
  · intro t d sd se
    rfl
  · intro ids t d sd se hne
    obtain ⟨h1, h2⟩ := find_latest_spec ids hne
    exact ⟨h1, h2, rfl⟩
  · intro ids t d sd se
    rfl
  · intro t d sd se
    rfl

/-- Witness for C8: on the store holding ids 0 and 2 (id 1 removed), the
next allocation is the latest id plus one, namely 3. -/
theorem create_id_allocation_witness :
    find_latest_habit_id [0, 2] ∈ ([0, 2] : List Int) ∧
    (create [0, 2] [] [] [] []).1.habit_id = find_latest_habit_id [0, 2] + 1 := by
  have h := create_id_allocation.2.1 [0, 2] [] [] [] [] (by decide)
  exact ⟨h.1, h.2.2⟩

/-- Helper: the search loop passes the accumulator through a match-free
store segment. -/
lemma loop_count_zero (store : List (Int × List Char)) (title : List Char) :
    ∀ acc, store.countP (titleMatches title) = 0 →
      find_habit_id_loop store title acc = Except.ok acc := by
  induction store with
  | nil =>
    intro acc _
    rfl
  | cons p rest ih =>
    intro acc h
    rw [List.countP_cons] at h
    by_cases hp : titleMatches title p = true
    · rw [if_pos hp] at h
      omega
    · rw [if_neg hp] at h
      simp only [find_habit_id_loop, if_neg hp]
      exact ih acc (by omega)

/-- Helper: once a match is held, any further match is the ambiguity
assertion. -/
lemma loop_some_ambiguous (store : List (Int × List Char)) (title : List Char) :
    ∀ j, 1 ≤ store.countP (titleMatches title) →
      find_habit_id_loop store title (some j) =
        Except.error HabitError.ambiguousTitle := by
  induction store with
  | nil =>
    intro j h
    simp at h
  | cons p rest ih =>
    intro j h
    by_cases hp : titleMatches title p = true
    · simp only [find_habit_id_loop, if_pos hp]
    · rw [List.countP_cons, if_neg hp] at h
      simp only [find_habit_id_loop, if_neg hp]
      exact ih j (by omega)

/-- Helper: two or more matches starting from an empty accumulator give the
ambiguity assertion. -/
lemma loop_none_ambiguous (store : List (Int × List Char)) (title : List Char) :
    2 ≤ store.countP (titleMatches title) →
      find_habit_id_loop store title none =
        Except.error HabitError.ambiguousTitle := by
  induction store with
  | nil =>
    intro h
    simp at h
  | cons p rest ih =>
    intro h
    rw [List.countP_cons] at h
    by_cases hp : titleMatches title p = true
    · rw [if_pos hp] at h
      simp only [find_habit_id_loop, if_pos hp]
      exact loop_some_ambiguous rest title p.1 (by omega)
    · rw [if_neg hp] at h
      simp only [find_habit_id_loop, if_neg hp]
      exact ih (by omega)

/-- Helper: with exactly one match the loop returns that entry's id. -/
lemma loop_count_one (store : List (Int × List Char)) (title : List Char) :
    ∀ i t, store.countP (titleMatches title) = 1 → (i, t) ∈ store →
      titleMatches title (i, t) = true →
      find_habit_id_loop store title none = Except.ok (some i) := by
  induction store with
  | nil =>
    intro i t _ hm _
    cases hm
  | cons p rest ih =>
    intro i t h hm hmt
    rw [List.countP_cons] at h
    by_cases hp : titleMatches title p = true
    · rw [if_pos hp] at h
      have hr : rest.countP (titleMatches title) = 0 := by omega
      simp only [find_habit_id_loop, if_pos hp]
      rw [loop_count_zero rest title (some p.1) hr]
      rcases List.mem_cons.mp hm with heq | hm2
      · rw [← heq]
      · exfalso
        exact (List.countP_eq_zero.mp hr _ hm2) hmt
    · rw [if_neg hp] at h
      simp only [find_habit_id_loop, if_neg hp]
      rcases List.mem_cons.mp hm with heq | hm2
      · exfalso
        rw [← heq] at hp
        exact hp hmt
      · exact ih i t (by omega) hm2 hmt

/-- C9: title lookup over the stored `(id, title)` pairs is
case-insensitive; with zero matches it fails with `NotFoundError`, with
exactly one match it returns that habit's id, and with two or more matches
(for example stored titles "Read" and "read" queried as "read") it fails
with `AmbiguousTitleError`. -/
theorem find_by_title_spec (store : List (Int × List Char)) (title : List Char) :
    (store.countP (titleMatches title) = 0 →
      find_habit_id store title = Except.error HabitError.notFound) ∧
    (∀ i t, store.countP (titleMatches title) = 1 → (i, t) ∈ store →
      titleMatches title (i, t) = true →
      find_habit_id store title = Except.ok i) ∧
    (2 ≤ store.countP (titleMatches title) →
      find_habit_id store title = Except.error HabitError.ambiguousTitle) := by
  refine ⟨?_, ?_, ?_⟩
  · intro h
    unfold find_habit_id
    rw [loop_count_zero store title none h]
  · intro i t h hm hmt
    unfold find_habit_id
    rw [loop_count_one store title i t h hm hmt]
  · intro h
    unfold find_habit_id
    rw [loop_none_ambiguous store title h]

/-- Witness for C9: a unique case-insensitive match is found; the stored
titles "Read" and "read" collide on the query "read"; an empty store is a
miss. -/
theorem find_by_title_spec_witness :
    find_habit_id [(5, "Read".toList)] ("read".toList) = Except.ok 5 ∧
    find_habit_id [(0, "Read".toList), (1, "read".toList)] ("read".toList) =
      Except.error HabitError.ambiguousTitle ∧
    find_habit_id [] ("read".toList) = Except.error HabitError.notFound := by
  refine ⟨?_, ?_, ?_⟩
  · exact (find_by_title_spec _ _).2.1 5 ("Read".toList) (by decide) (by decide)
      (by decide)
  · exact (find_by_title_spec _ _).2.2 (by decide)
  · exact (find_by_title_spec _ _).1 (by decide)

end HabitTracker
